import Mathlib

/-!
Verification of the ST-servo driver and stall-monitor control loop.

Shallow embedding of `waveshare_driver.py` (packet codec, checksums,
response reader, retry loops, load decode, position write encoding) and of
the control loop in `main_robot_control.py` (`RobotController._run_logic`).

Bytes are modelled as natural numbers; Python's `& 0xFF` on a nonnegative
value is `% 256`, and `(~s) & 0xFF` on a Python integer `s` equals
`(-s - 1) mod 256`, which we keep in `Int` form to stay faithful to the
source expression.  Serial streams are modelled as lists of bytes already
received; a read that would block past the deadline corresponds to running
off the end of the list.
-/

namespace STServo

/-- Value of `(~s) & 0xFF` for a nonnegative Python integer `s`:
Python's `~s` is `-s - 1` (arbitrary precision two's complement) and
`& 0xFF` takes the nonnegative residue mod 256.
Embeds the inline checksum expression in `_format_packet` (line 100). -/
def pyNotMask (s : ℕ) : ℕ :=
  ((-(s : ℤ) - 1) % 256).toNat

/-- Value of `(~(s & 0xFF)) & 0xFF`, the variant used by
`_verify_response_checksum` (line 118). -/
def pyNotMaskInner (s : ℕ) : ℕ :=
  ((-((s % 256 : ℕ) : ℤ) - 1) % 256).toNat

theorem pyNotMask_eq (s : ℕ) : pyNotMask s = 255 - s % 256 := by
  unfold pyNotMask
  omega

theorem pyNotMaskInner_eq (s : ℕ) : pyNotMaskInner s = 255 - s % 256 := by
  unfold pyNotMaskInner
  omega

/-- Embeds `STServoDriver._format_packet` (lines 88–102): builds
`0xFF 0xFF id length instruction params... checksum` with
`length = len(params) + 2` and checksum `(~sum(header[2:])) & 0xFF`;
every stored byte is masked with `& 0xFF`. -/
def format_packet (servo_id instruction : ℕ) (params : List ℕ) : List ℕ :=
  let length_field := (params.length + 2) % 256
  let header := [0xFF, 0xFF, servo_id % 256, length_field, instruction % 256] ++
    params.map (· % 256)
  header ++ [pyNotMask (header.drop 2).sum]

/-- Errors raised by `_read_response_raw`; the first three are
`PacketTimeoutError` with distinct messages, the last is
`PacketChecksumError`. -/
inductive DecodeError where
  | timeoutHeader      -- "Timeout waiting for header"
  | timeoutResync      -- "Timeout finding packet header"
  | shortIdLen         -- "Timeout reading ID+LENGTH"
  | shortPayload       -- "Timeout reading packet payload"
  | checksumMismatch   -- "Response checksum mismatch"
  deriving DecidableEq, Repr

/-- Embeds `STServoDriver._verify_response_checksum` (lines 104–120): false if the
packet is shorter than 6 bytes, otherwise compares the received trailing
byte with `(~(sum(packet[2:-1]) & 0xFF)) & 0xFF`. -/
def verify_response_checksum (packet : List ℕ) : Bool :=
  if packet.length < 6 then false
  else
    let rest_without_header := (packet.drop 2).dropLast
    decide (pyNotMaskInner rest_without_header.sum = packet.getLastD 0)

/-- The resynchronization scan in `_read_response_raw` (lines 186–199): read
byte-by-byte keeping a fresh two-byte window, succeed at the first adjacent
`0xFF 0xFF` pair, returning the remaining stream; `none` models running out
of bytes (`PacketTimeoutError("Timeout finding packet header")`). -/
def scanHeader : List ℕ → Option (List ℕ)
  | [] => none
  | [_] => none
  | a :: b :: rest =>
    if a = 0xFF ∧ b = 0xFF then some rest else scanHeader (b :: rest)

/-- The tail phase of `_read_response_raw` (lines 205–238) after the header
bytes have been consumed: read `id` and `length`, then `length` payload
bytes, rebuild the packet and verify its checksum.  The `expected_id` and
`expected_data_len` comparisons in the source only log warnings, so they do
not appear in the result. -/
def read_after_header (rest : List ℕ) : Except DecodeError (List ℕ) :=
  match rest with
  | servo_id :: length :: rest2 =>
    if rest2.length < length then .error .shortPayload
    else
      let packet := [0xFF, 0xFF, servo_id, length] ++ rest2.take length
      if verify_response_checksum packet then .ok packet
      else .error .checksumMismatch
  | _ => .error .shortIdLen

/-- Embeds `STServoDriver._read_response_raw` (lines 159–238) over a byte stream:
the first loop fills a two-byte buffer with the first two stream bytes; if
they are not `0xFF 0xFF` the resynchronization scan starts fresh from the
third byte (`scanHeader`), so a header pair straddling positions 1–2 of the
stream is not seen. -/
def read_response_raw (stream : List ℕ) : Except DecodeError (List ℕ) :=
  match stream with
  | b0 :: b1 :: rest =>
    if b0 = 0xFF ∧ b1 = 0xFF then read_after_header rest
    else
      match scanHeader rest with
      | some rest2 => read_after_header rest2
      | none => .error .timeoutResync
  | _ => .error .timeoutHeader

/-- Holds (`hasHeaderPair l = true`) iff `l` contains two adjacent `0xFF` bytes —
the pattern `scanHeader` synchronizes on. -/
def hasHeaderPair : List ℕ → Bool
  | [] => false
  | [_] => false
  | a :: b :: rest =>
    if a = 0xFF ∧ b = 0xFF then true else hasHeaderPair (b :: rest)

/-- Embeds the `STServoDriver.read_load` body after unpacking (lines 311–317): split
the 16-bit register value at the configured sign-bit index into magnitude
and direction. -/
def read_load_decode (load_sign_bit raw_val : ℕ) : ℤ :=
  let magnitude_mask := (1 <<< load_sign_bit) - 1
  let direction_mask := 1 <<< load_sign_bit
  let magnitude := raw_val &&& magnitude_mask
  let direction : ℤ := if raw_val &&& direction_mask ≠ 0 then -1 else 1
  (magnitude : ℤ) * direction

/-- The little-endian unpack `struct.unpack('<H', raw)` of the two load
register bytes (line 306) followed by the sign split. -/
def read_load_of_bytes (load_sign_bit lo hi : ℕ) : ℤ :=
  read_load_decode load_sign_bit (lo + 256 * hi)

/-- The parameter list built by `STServoDriver.write_position`
(lines 325–337): clamp each input to 16 bits with `& 0xFFFF` (on a Python
int this is the nonnegative residue mod 2^16), then split into low and
high bytes; byte order is `[addr, pos_L, pos_H, time_L, time_H, spd_L,
spd_H]` with `ADDR_POS_TARGET = 0x2A`. -/
def write_position_params (position speed time_ms : ℤ) : List ℕ :=
  let position := (position % 0x10000).toNat
  let speed := (speed % 0x10000).toNat
  let time_val := (time_ms % 0x10000).toNat
  let pos_L := position &&& 0xFF
  let pos_H := (position >>> 8) &&& 0xFF
  let time_L := time_val &&& 0xFF
  let time_H := (time_val >>> 8) &&& 0xFF
  let spd_L := speed &&& 0xFF
  let spd_H := (speed >>> 8) &&& 0xFF
  [0x2A, pos_L, pos_H, time_L, time_H, spd_L, spd_H]

/-- Outcome of one `write_position` attempt: the servo's status read either
succeeds, times out (caught by the inner `except PacketTimeoutError` and
accepted as success, lines 344–348), or fails the checksum
(`except PacketChecksumError`, line 350, causing a retry). -/
inductive WriteAttempt where
  | ok
  | timeout
  | checksumErr
  deriving DecidableEq, Repr

/-- The retry loop of `STServoDriver.write_position` (lines 339–356) over
an environment giving the outcome of each attempt: returns `True` on the
first attempt that is not a checksum error, and raises
`STServoError("write_position failed after retries")` after exhausting
`retries` attempts. -/
def write_position_run : ℕ → (ℕ → WriteAttempt) → Except String Bool
  | 0, _ => .error "write_position failed after retries"
  | n + 1, env =>
    match env 0 with
    | .checksumErr => write_position_run n (fun i => env (i + 1))
    | _ => .ok true

/-- Number of transmission attempts `write_position` performs before
returning or raising, for a given retry bound and environment. -/
def write_position_attempts : ℕ → (ℕ → WriteAttempt) → ℕ
  | 0, _ => 0
  | n + 1, env =>
    match env 0 with
    | .checksumErr => 1 + write_position_attempts n (fun i => env (i + 1))
    | _ => 1

/-- The constructor's clamp `self.retries = max(1, int(retries))`
(`STServoDriver.__init__`, line 71), for an integer argument. -/
def init_retries (retries : ℤ) : ℕ :=
  (max 1 retries).toNat

/-- The retry loop of `STServoDriver.ping` (lines 243–252): each attempt
either yields a checksum-valid response (`env i = true`) or raises a caught
timeout/checksum error; returns `False` after exhausting retries. -/
def ping_run : ℕ → (ℕ → Bool) → Bool
  | 0, _ => false
  | n + 1, env => if env 0 then true else ping_run n (fun i => env (i + 1))

/-- Number of transmission attempts `ping` performs. -/
def ping_attempts : ℕ → (ℕ → Bool) → ℕ
  | 0, _ => 0
  | n + 1, env => if env 0 then 1 else 1 + ping_attempts n (fun i => env (i + 1))

/-- The retry loop of `STServoDriver._read_data` (lines 260–278): each
attempt either yields data bytes (`env i = some data`) or raises a caught
timeout/checksum/length error; returns `None` after exhausting retries. -/
def read_data_run : ℕ → (ℕ → Option (List ℕ)) → Option (List ℕ)
  | 0, _ => none
  | n + 1, env =>
    match env 0 with
    | some data => some data
    | none => read_data_run n (fun i => env (i + 1))

/-- Number of transmission attempts `_read_data` performs. -/
def read_data_attempts : ℕ → (ℕ → Option (List ℕ)) → ℕ
  | 0, _ => 0
  | n + 1, env =>
    match env 0 with
    | some _ => 1
    | none => 1 + read_data_attempts n (fun i => env (i + 1))

end STServo

namespace RobotControl

open STServo

/-- Python `int()` on a rational value: truncation toward zero. -/
def pyInt (q : ℚ) : ℤ :=
  if 0 ≤ q then ⌊q⌋ else ⌈q⌉

/-- Constant `STEPS_PER_DEGREE = 4096 / 360.0` (`_run_logic`, line 111), modelled
exactly in ℚ; the double-precision computation in the source agrees with
the exact rational value of this expression at every 16-bit position. -/
def STEPS_PER_DEGREE : ℚ := 4096 / 360

/-- The corrective ("back off") target computed in the stall branch of
`RobotController._run_logic` (lines 111–114):
`current_deg = current_pos / STEPS_PER_DEGREE`,
`target_deg = (current_deg // 45) * 45`,
`target_back_pos = int(target_deg * STEPS_PER_DEGREE)`.
Note it depends only on `current_pos`; `start_position` is not used. -/
def target_back_pos (current_pos : ℕ) : ℤ :=
  let current_deg : ℚ := (current_pos : ℚ) / STEPS_PER_DEGREE
  let target_deg : ℚ := (⌊current_deg / 45⌋ : ℚ) * 45
  pyInt (target_deg * STEPS_PER_DEGREE)

/-- Constant `STALL_THRESHOLD = 600` (`main_robot_control.py`, line 12). -/
def STALL_THRESHOLD : ℤ := 600

/-- One poll tick of the monitor loop, as seen by `_run_logic`: the value
of `self.running` at the top of the iteration, the elapsed time in seconds
at the timeout check, and the two feedback reads (`None` models a driver
read returning `None`). -/
structure Tick where
  running : Bool
  elapsed : ℚ
  load : Option ℤ
  pos : Option ℕ
  deriving DecidableEq, Repr

/-- How the monitor loop exited. -/
inductive LoopExit where
  | cancelled          -- `while self.running` saw False
  | timedOut           -- `elapsed_time > 10` branch (line 88)
  | stalled (stallPos : ℕ)  -- `abs(current_load) > STALL_THRESHOLD` branch
  | fuelOut            -- tick sequence exhausted with the loop still live
  deriving DecidableEq, Repr

/-- The monitor loop of `RobotController._run_logic` (lines 84–121), after
the initial motion command: per tick, check `self.running`, check
`elapsed_time > 10`, read load and position, and if both reads succeeded
and `abs(load) > STALL_THRESHOLD` compute `target_back_pos` and issue the
one corrective `write_position`.  Returns the exit cause and the list of
corrective write targets issued. -/
def run_logic : List Tick → LoopExit × List ℤ
  | [] => (.fuelOut, [])
  | t :: ts =>
    if t.running = false then (.cancelled, [])
    else if 10 < t.elapsed then (.timedOut, [])
    else
      match t.load, t.pos with
      | some current_load, some current_pos =>
        if STALL_THRESHOLD < |current_load| then
          (.stalled current_pos, [target_back_pos current_pos])
        else run_logic ts
      | _, _ => run_logic ts

end RobotControl

namespace RobotControl

/-- The corrective-target computation is exactly "floor the current
position to the next-lower multiple of 512 steps (45°)": the two floats
cancel exactly in ℚ. -/
theorem target_back_pos_eq (cp : ℕ) :
    target_back_pos cp = ((cp / 512 : ℕ) : ℤ) * 512 := by
  have hdiv : ((cp : ℚ) / STEPS_PER_DEGREE) / 45 = (cp : ℚ) / 512 := by
    unfold STEPS_PER_DEGREE
    rw [div_div]
    norm_num
  have hfl : ⌊((cp : ℚ) / 512)⌋ = ((cp / 512 : ℕ) : ℤ) := by
    rw [← Int.natCast_floor_eq_floor (by positivity), Nat.floor_div_ofNat, Nat.floor_natCast]
  have hval : ((⌊((cp : ℚ) / STEPS_PER_DEGREE) / 45⌋ : ℚ) * 45) * STEPS_PER_DEGREE
      = ((((cp / 512 : ℕ) : ℤ) * 512 : ℤ) : ℚ) := by
    rw [hdiv, hfl]
    unfold STEPS_PER_DEGREE
    push_cast
    ring
  unfold target_back_pos pyInt
  simp only [hval]
  rw [if_pos (by positivity), Int.floor_intCast]

/-- C1 (amended): the corrective target issued on stall is computed from
`current_position` alone as `int(((current_pos / spd) // 45) * 45 * spd)`
with `spd = 4096/360`, i.e. the current position floored to the
next-lower 45° multiple, `(current_pos / 512) * 512` in integer division;
`start_position` is not consulted, a zero offset is not snapped away, and
the corrective move can target the start position.  In particular
`current_position = 1554 ↦ 1536` and `current_position = 1034 ↦ 1024`. -/
theorem corrective_target_floor_policy :
    (∀ current_pos : ℕ,
      target_back_pos current_pos = ((current_pos / 512 : ℕ) : ℤ) * 512) ∧
    target_back_pos 1554 = 1536 ∧ target_back_pos 1034 = 1024 := by
  refine ⟨target_back_pos_eq, ?_, ?_⟩
  · rw [target_back_pos_eq]; norm_num
  · rw [target_back_pos_eq]; norm_num

/-- C1 (counterexample): with `start_position = 1024` and
`current_position = 1034` the code computes corrective target `1024`
(the start position itself), not the `1536` the claim requires, and the
claimed round-with-zero-snap policy is therefore not the implemented
one. -/
theorem corrective_target_claim_false :
    target_back_pos 1034 = 1024 ∧ (1024 : ℤ) ≠ 1536 := by
  refine ⟨?_, by decide⟩
  rw [target_back_pos_eq]; norm_num

end RobotControl

namespace STServo

/-- C2 (amended): `read_load` splits the little-endian 16-bit register
value at the sign-bit index: the result is the low `sign_bit` bits
(`raw % 2 ^ sign_bit`), negated exactly when bit `sign_bit` is set.  Raw
`0x0205` (bytes `05 02`) has bit 10 clear, so it decodes to `+517`;
raw `0x0010` decodes to `+16`. -/
theorem read_load_sign_split :
    (∀ sign_bit raw_val : ℕ, read_load_decode sign_bit raw_val =
      if raw_val.testBit sign_bit then -((raw_val % 2 ^ sign_bit : ℕ) : ℤ)
      else ((raw_val % 2 ^ sign_bit : ℕ) : ℤ)) ∧
    read_load_of_bytes 10 0x05 0x02 = 517 ∧
    read_load_decode 10 0x0205 = 517 ∧
    read_load_decode 10 0x0010 = 16 := by
  refine ⟨fun sb raw => ?_, by decide, by decide, by decide⟩
  simp only [read_load_decode]
  have hmag : raw &&& (1 <<< sb - 1) = raw % 2 ^ sb := by
    rw [Nat.shiftLeft_eq, one_mul, Nat.and_pow_two_sub_one_eq_mod]
  have hdir : raw &&& (1 <<< sb) = (raw.testBit sb).toNat * 2 ^ sb := by
    rw [Nat.shiftLeft_eq, one_mul, Nat.and_two_pow]
  rw [hmag, hdir]
  cases h : raw.testBit sb <;> simp [h, pow_ne_zero]

/-- C2 (counterexample): the claim's example is wrong about the code: raw
value `0x0205` has direction bit 10 *clear* (`0x205 < 0x400`), so
`read_load` returns `+517`, not `-517`. -/
theorem read_load_example_claim_false :
    read_load_decode 10 0x0205 = 517 ∧ (517 : ℤ) ≠ -517 ∧
    Nat.testBit 0x0205 10 = false := by
  decide

/-- C9: whenever `read_load` returns a value, its absolute value is at
most `2 ^ load_sign_bit - 1` — at most `1023` with the default sign-bit
index 10 — for every 16-bit register content. -/
theorem read_load_magnitude_bound (load_sign_bit raw_val : ℕ)
    (h : raw_val < 65536) :
    (read_load_decode load_sign_bit raw_val).natAbs ≤ 2 ^ load_sign_bit - 1 ∧
    (read_load_decode 10 raw_val).natAbs ≤ 1023 := by
  have key : ∀ sb : ℕ, (read_load_decode sb raw_val).natAbs ≤ 2 ^ sb - 1 := by
    intro sb
    simp only [read_load_decode]
    have hle : raw_val &&& (1 <<< sb - 1) ≤ 2 ^ sb - 1 := by
      rw [Nat.shiftLeft_eq, one_mul]
      exact Nat.and_le_right
    split <;> simpa using hle
  exact ⟨key load_sign_bit, by simpa using key 10⟩

/-- Witness for C9 at the register content `0x0205`. -/
theorem read_load_magnitude_bound_witness :
    (read_load_decode 10 0x0205).natAbs ≤ 2 ^ 10 - 1 ∧
    (read_load_decode 10 0x0205).natAbs ≤ 1023 :=
  read_load_magnitude_bound 10 0x0205 (by decide)

/-- Closed form of `format_packet` for byte-valued inputs: the masks
become identities and the checksum is the complement of the byte sum from
`id` through the last parameter. -/
theorem format_packet_eq (servo_id instruction : ℕ) (params : List ℕ)
    (hid : servo_id < 256) (hin : instruction < 256) (hp : ∀ p ∈ params, p < 256)
    (hlen : params.length ≤ 253) :
    format_packet servo_id instruction params =
      [0xFF, 0xFF, servo_id, params.length + 2, instruction] ++ params ++
        [pyNotMask (servo_id + (params.length + 2) + instruction + params.sum)] := by
  have hmap : params.map (· % 256) = params := by
    rw [List.map_congr_left (fun p hp' => Nat.mod_eq_of_lt (hp p hp'))]
    exact List.map_id params
  simp only [format_packet, hmap, Nat.mod_eq_of_lt hid, Nat.mod_eq_of_lt hin,
    Nat.mod_eq_of_lt (show params.length + 2 < 256 by omega)]
  simp only [List.cons_append, List.nil_append, List.drop_succ_cons, List.drop_zero,
    List.sum_cons, List.append_assoc]
  have : servo_id + (params.length + 2 + (instruction + params.sum)) =
      servo_id + (params.length + 2) + instruction + params.sum := by ring
  rw [this]

/-- Any packet of shape `FF FF id len ins params chk` whose trailing byte
is the complement of the byte sum from `id` onward passes
`_verify_response_checksum`. -/
theorem verify_format_shape (sid L ins chk : ℕ) (params : List ℕ)
    (hchk : chk = pyNotMask (sid + L + ins + params.sum)) :
    verify_response_checksum ([0xFF, 0xFF, sid, L, ins] ++ params ++ [chk]) = true := by
  simp only [verify_response_checksum]
  rw [if_neg (by simp)]
  have h1 : ([0xFF, 0xFF, sid, L, ins] ++ params ++ [chk]).drop 2 =
      ([sid, L, ins] ++ params) ++ [chk] := by simp
  have h2 : ([0xFF, 0xFF, sid, L, ins] ++ params ++ [chk]).getLastD 0 = chk := by
    rw [show ([0xFF, 0xFF, sid, L, ins] ++ params ++ [chk]) =
      ([0xFF, 0xFF, sid, L, ins] ++ params) ++ [chk] by simp, List.getLastD_concat]
  rw [h1, List.dropLast_concat, h2, hchk, pyNotMaskInner_eq, pyNotMask_eq]
  have hsum : ([sid, L, ins] ++ params).sum = sid + L + ins + params.sum := by
    simp [List.sum_append]; ring
  rw [hsum]
  simp

/-- After the header, a body of exactly the advertised length whose
checksum verifies is accepted and returned verbatim. -/
theorem read_after_header_ok (sid L : ℕ) (body : List ℕ) (hbl : body.length = L)
    (hv : verify_response_checksum ([0xFF, 0xFF, sid, L] ++ body) = true) :
    read_after_header (sid :: L :: body) = .ok ([0xFF, 0xFF, sid, L] ++ body) := by
  simp only [read_after_header]
  rw [if_neg (by omega), List.take_of_length_le (by omega), hv]
  simp

/-- C3: for every byte-valued servo id, instruction and parameter list
(at most 253 parameters so the length byte does not wrap), the encoded
outgoing packet is exactly
`[0xFF, 0xFF, id, len(params)+2, instruction] ++ params ++ [checksum]`
with `checksum = (~(id + length + instruction + sum params)) & 0xFF`
(`pyNotMask` is that complement-and-truncate). -/
theorem format_packet_spec (servo_id instruction : ℕ) (params : List ℕ)
    (hid : servo_id < 256) (hin : instruction < 256) (hp : ∀ p ∈ params, p < 256)
    (hlen : params.length ≤ 253) :
    format_packet servo_id instruction params =
      [0xFF, 0xFF, servo_id, params.length + 2, instruction] ++ params ++
        [pyNotMask (servo_id + (params.length + 2) + instruction + params.sum)] :=
  format_packet_eq servo_id instruction params hid hin hp hlen

/-- Witness for C3: a concrete WRITE packet, `id 1`, instruction `0x03`,
params `[0x2A, 0, 8]`: checksum `255 - (1+5+3+50) = 196`. -/
theorem format_packet_spec_witness :
    format_packet 1 3 [42, 0, 8] = [0xFF, 0xFF, 1, 5, 3, 42, 0, 8, 196] :=
  (format_packet_spec 1 3 [42, 0, 8] (by decide) (by decide) (by decide)
    (by decide)).trans (by decide)

/-- C4: feeding the encoder's output for valid `(id, instruction, params)`
into the response reader over an uncorrupted loopback succeeds — the
checksum verifies — and the returned packet carries the same id at offset
2, the same instruction as the byte after the length field (offset 4), and
the same parameter bytes from offset 5. -/
theorem encode_decode_roundtrip (servo_id instruction : ℕ) (params : List ℕ)
    (hid : servo_id < 256) (hin : instruction < 256) (hp : ∀ p ∈ params, p < 256)
    (hlen : params.length ≤ 253) :
    read_response_raw (format_packet servo_id instruction params) =
      .ok (format_packet servo_id instruction params) ∧
    (format_packet servo_id instruction params)[2]? = some servo_id ∧
    (format_packet servo_id instruction params)[4]? = some instruction ∧
    ((format_packet servo_id instruction params).drop 5).take params.length =
      params := by
  have hfp := format_packet_eq servo_id instruction params hid hin hp hlen
  refine ⟨?_, ?_, ?_, ?_⟩
  · rw [hfp]
    set L := params.length + 2 with hL
    set c := pyNotMask (servo_id + L + instruction + params.sum) with hc
    have hstream : ([0xFF, 0xFF, servo_id, L, instruction] ++ params ++ [c]) =
        0xFF :: 0xFF :: servo_id :: L :: (instruction :: (params ++ [c])) := by
      simp
    rw [hstream, read_response_raw, if_pos ⟨rfl, rfl⟩]
    have hbl : (instruction :: (params ++ [c])).length = L := by simp [hL]
    rw [read_after_header_ok servo_id L _ hbl]
    · rw [show ([0xFF, 0xFF, servo_id, L] ++ instruction :: (params ++ [c])) =
        0xFF :: 0xFF :: servo_id :: L :: (instruction :: (params ++ [c])) by simp]
    · rw [show ([0xFF, 0xFF, servo_id, L] ++ instruction :: (params ++ [c])) =
        [0xFF, 0xFF, servo_id, L, instruction] ++ params ++ [c] by simp]
      exact verify_format_shape servo_id L instruction c params hc
  · rw [hfp]; simp
  · rw [hfp]; simp
  · rw [hfp]
    rw [show (([0xFF, 0xFF, servo_id, params.length + 2, instruction] ++ params ++
      [pyNotMask (servo_id + (params.length + 2) + instruction + params.sum)]).drop 5) =
      params ++ [pyNotMask (servo_id + (params.length + 2) + instruction + params.sum)] by
        simp]
    exact List.take_left params _

/-- Witness for C4: the READ-position request `id 1`, instruction `0x02`,
params `[0x38, 2]` round-trips through the loopback reader. -/
theorem encode_decode_roundtrip_witness :
    read_response_raw (format_packet 1 2 [56, 2]) = .ok (format_packet 1 2 [56, 2]) ∧
    (format_packet 1 2 [56, 2])[2]? = some 1 ∧
    (format_packet 1 2 [56, 2])[4]? = some 2 ∧
    ((format_packet 1 2 [56, 2]).drop 5).take 2 = [56, 2] :=
  encode_decode_roundtrip 1 2 [56, 2] (by decide) (by decide) (by decide) (by decide)

/-- If `a :: l` has no adjacent `0xFF 0xFF` pair, neither does `l`. -/
theorem hasHeaderPair_cons_false {a : ℕ} {l : List ℕ}
    (h : hasHeaderPair (a :: l) = false) : hasHeaderPair l = false := by
  cases l with
  | nil => rfl
  | cons b t =>
    rw [hasHeaderPair] at h
    split at h
    · exact absurd h (by simp)
    · exact h

/-- A stream with no adjacent `0xFF 0xFF` pair exhausts the
resynchronization scan. -/
theorem scanHeader_of_no_pair {l : List ℕ} (h : hasHeaderPair l = false) :
    scanHeader l = none := by
  induction l with
  | nil => rfl
  | cons a t ih =>
    cases t with
    | nil => rfl
    | cons b t' =>
      rw [hasHeaderPair] at h
      rw [scanHeader]
      split at h
      · exact absurd h (by simp)
      · rename_i hcond
        rw [if_neg hcond]
        exact ih h

/-- The resynchronization scan finds an appended `0xFF 0xFF` header
whenever the leading garbage has no internal pair and does not end in
`0xFF` (which would make the scan fire one byte early). -/
theorem scanHeader_append {l : List ℕ} (r : List ℕ)
    (hnp : hasHeaderPair l = false) (hlast : l.getLast? ≠ some 0xFF) :
    scanHeader (l ++ 0xFF :: 0xFF :: r) = some r := by
  induction l with
  | nil => simp [scanHeader]
  | cons a t ih =>
    cases t with
    | nil =>
      have ha : a ≠ 0xFF := by
        simp only [List.getLast?_singleton, ne_eq, Option.some.injEq] at hlast
        exact hlast
      simp [scanHeader, ha]
    | cons b t' =>
      rw [hasHeaderPair] at hnp
      simp only [List.cons_append, scanHeader]
      split at hnp
      · exact absurd hnp (by simp)
      · rename_i hcond
        rw [if_neg hcond]
        exact ih hnp (by rwa [List.getLast?_cons_cons] at hlast)

/-- C5 (amended): if the first two stream bytes are not `0xFF 0xFF`, the
reader scans for two consecutive `0xFF` bytes only from the third byte
onward.  For a garbage prefix of length ≥ 2 that contains no `0xFF 0xFF`
pair and whose part after the first two bytes does not end in `0xFF`, it
resynchronizes at the true header and parses the packet that follows; and
a stream with no adjacent `0xFF 0xFF` pair at all fails with one of the
two header-timeout errors.  (A header pair straddling stream positions
1–2, or a garbage `0xFF` directly before the header, is missed — so for a
garbage prefix of length 1 the true header can be skipped entirely.) -/
theorem read_response_resync_policy :
    (∀ (G rest : List ℕ), 2 ≤ G.length → hasHeaderPair G = false →
      (G.drop 2).getLast? ≠ some 0xFF →
      read_response_raw (G ++ 0xFF :: 0xFF :: rest) = read_after_header rest) ∧
    (∀ stream : List ℕ, hasHeaderPair stream = false →
      read_response_raw stream = .error .timeoutHeader ∨
      read_response_raw stream = .error .timeoutResync) := by
  constructor
  · intro G rest hlen hnp hlast
    cases G with
    | nil => simp at hlen
    | cons g0 t =>
      cases t with
      | nil => simp at hlen
      | cons g1 G' =>
        rw [hasHeaderPair] at hnp
        simp only [List.cons_append]
        rw [read_response_raw]
        split at hnp
        · exact absurd hnp (by simp)
        · rename_i hcond
          rw [if_neg hcond]
          have hnp' : hasHeaderPair G' = false := hasHeaderPair_cons_false hnp
          have hlast' : G'.getLast? ≠ some 0xFF := hlast
          rw [scanHeader_append rest hnp' hlast']
  · intro stream h
    cases stream with
    | nil => exact Or.inl rfl
    | cons b0 t =>
      cases t with
      | nil => exact Or.inl rfl
      | cons b1 t' =>
        right
        rw [hasHeaderPair] at h
        rw [read_response_raw]
        split at h
        · exact absurd h (by simp)
        · rename_i hcond
          rw [if_neg hcond]
          rw [scanHeader_of_no_pair (hasHeaderPair_cons_false h)]

/-- C5 (counterexample): the single garbage byte `0x01` contains no
`0xFF 0xFF`, and a complete valid packet `FF FF 01 02 00 FC` follows, yet
the reader times out instead of parsing it: the genuine header occupies
stream positions 1–2, straddling the initial two-byte buffer, and the
fresh scan window starting at position 2 never sees two consecutive
`0xFF`.  The second conjunct shows the packet would have been accepted had
the reader synchronized on the true header. -/
theorem read_response_resync_claim_false :
    read_response_raw [1, 0xFF, 0xFF, 1, 2, 0, 252] = .error .timeoutResync ∧
    read_after_header [1, 2, 0, 252] = .ok [0xFF, 0xFF, 1, 2, 0, 252] := by
  constructor <;> rfl

/-- Witness for C5 at the two-byte garbage prefix `01 02`. -/
theorem read_response_resync_policy_witness :
    read_response_raw [1, 2, 0xFF, 0xFF, 1, 2, 0, 252] =
      read_after_header [1, 2, 0, 252] :=
  read_response_resync_policy.1 [1, 2] [1, 2, 0, 252] (by decide) (by decide)
    (by decide)

/-- C6 (amended): `write_position` raises its hard error — message
`"write_position failed after retries"` — exactly when every attempt fails
with a checksum error, and returns `True` as soon as an attempt either
gets a valid status packet or times out (a timeout is accepted as
success); only checksum errors consume a retry. -/
theorem write_position_retry_policy (retries : ℕ) (env : ℕ → WriteAttempt) :
    (write_position_run retries env = .error "write_position failed after retries" ↔
      ∀ i < retries, env i = .checksumErr) ∧
    (write_position_run retries env = .ok true ↔
      ∃ i < retries, env i ≠ .checksumErr) := by
  induction retries generalizing env with
  | zero =>
    refine ⟨by simp [write_position_run], ?_⟩
    simp [write_position_run]
  | succ n ih =>
    rw [write_position_run]
    cases h0 : env 0 with
    | checksumErr =>
      have := ih (fun i => env (i + 1))
      constructor
      · rw [this.1]
        constructor
        · intro hall i hi
          cases i with
          | zero => exact h0
          | succ j => exact hall j (by omega)
        · intro hall i hi
          exact hall (i + 1) (by omega)
      · rw [this.2]
        constructor
        · rintro ⟨i, hi, hne⟩
          exact ⟨i + 1, by omega, hne⟩
        · rintro ⟨i, hi, hne⟩
          cases i with
          | zero => exact absurd h0 hne
          | succ j => exact ⟨j, by omega, hne⟩
    | ok =>
      refine ⟨iff_of_false (by simp) ?_, iff_of_true rfl ⟨0, by omega, by simp [h0]⟩⟩
      intro hall
      exact absurd (hall 0 (by omega)) (by simp [h0])
    | timeout =>
      refine ⟨iff_of_false (by simp) ?_, iff_of_true rfl ⟨0, by omega, by simp [h0]⟩⟩
      intro hall
      exact absurd (hall 0 (by omega)) (by simp [h0])

/-- C6 (counterexample): the hard error's message is
`"write_position failed after retries"`, not the claimed
`"write failed after retries"`. -/
theorem write_position_message_claim_false :
    write_position_run 1 (fun _ => WriteAttempt.checksumErr) =
      .error "write_position failed after retries" ∧
    "write_position failed after retries" ≠ "write failed after retries" := by
  refine ⟨rfl, ?_⟩
  decide

/-- Witness for C6: every attempt times out, yet the write is accepted. -/
theorem write_position_retry_policy_witness :
    write_position_run 3 (fun _ => WriteAttempt.timeout) = .ok true :=
  (write_position_retry_policy 3 (fun _ => WriteAttempt.timeout)).2.mpr
    ⟨0, by omega, by simp⟩

/-- C8: for all integer inputs — negative or above 65535 included —
`write_position` transmits exactly the low 16 bits of position, time and
speed (the value mod 2^16), each as a little-endian byte pair following
the target-position register address, without raising any range error. -/
theorem write_position_wraps (position speed time_ms : ℤ) :
    ∃ pL pH tL tH sL sH : ℕ,
      write_position_params position speed time_ms =
        [0x2A, pL, pH, tL, tH, sL, sH] ∧
      pL < 256 ∧ pH < 256 ∧ tL < 256 ∧ tH < 256 ∧ sL < 256 ∧ sH < 256 ∧
      ((pL + 256 * pH : ℕ) : ℤ) = position % 65536 ∧
      ((tL + 256 * tH : ℕ) : ℤ) = time_ms % 65536 ∧
      ((sL + 256 * sH : ℕ) : ℤ) = speed % 65536 := by
  have key : ∀ x : ℤ,
      ((x % 0x10000).toNat &&& 0xFF) < 256 ∧
      ((((x % 0x10000).toNat >>> 8) &&& 0xFF)) < 256 ∧
      ((((x % 0x10000).toNat &&& 0xFF) +
        256 * (((x % 0x10000).toNat >>> 8) &&& 0xFF) : ℕ) : ℤ) = x % 65536 := by
    intro x
    set v := (x % 0x10000).toNat with hv
    have hvlt : v < 65536 := by
      have h1 : x % 0x10000 < 0x10000 :=
        Int.emod_lt_of_pos x (by norm_num)
      omega
    have hand : ∀ y : ℕ, y &&& 0xFF = y % 256 := fun y => by
      have := Nat.and_pow_two_sub_one_eq_mod y 8
      norm_num at this
      exact this
    have hshift : v >>> 8 = v / 256 := by
      rw [Nat.shiftRight_eq_div_pow]
    have hcast : ((v : ℕ) : ℤ) = x % 65536 := by
      rw [hv, Int.toNat_of_nonneg (Int.emod_nonneg x (by norm_num))]
    refine ⟨by rw [hand]; omega, by rw [hand]; omega, ?_⟩
    rw [hand, hshift, hand]
    have : v % 256 + 256 * (v / 256 % 256) = v := by omega
    rw [this, hcast]
  obtain ⟨p1, p2, p3⟩ := key position
  obtain ⟨t1, t2, t3⟩ := key time_ms
  obtain ⟨s1, s2, s3⟩ := key speed
  exact ⟨_, _, _, _, _, _, rfl, p1, p2, t1, t2, s1, s2, p3, t3, s3⟩

end STServo

namespace STServo

/-- C10: the constructor clamps `retries` to at least 1, so the retry
loops of `ping`, the generic register read `_read_data`, and
`write_position` each perform at least one transmission attempt, even when
the driver is constructed with a zero or negative retry count. -/
theorem init_retries_at_least_one (retries : ℤ) (envPing : ℕ → Bool)
    (envRead : ℕ → Option (List ℕ)) (envWrite : ℕ → WriteAttempt) :
    1 ≤ init_retries retries ∧
    1 ≤ ping_attempts (init_retries retries) envPing ∧
    1 ≤ read_data_attempts (init_retries retries) envRead ∧
    1 ≤ write_position_attempts (init_retries retries) envWrite := by
  have h1 : 1 ≤ init_retries retries := by
    unfold init_retries
    have : (1 : ℤ) ≤ max 1 retries := le_max_left _ _
    omega
  obtain ⟨m, hm⟩ : ∃ m, init_retries retries = m + 1 :=
    ⟨init_retries retries - 1, by omega⟩
  rw [hm]
  refine ⟨by omega, ?_, ?_, ?_⟩
  · rw [ping_attempts]
    split <;> omega
  · rw [read_data_attempts]
    split <;> omega
  · rw [write_position_attempts]
    split <;> omega

end STServo

namespace RobotControl

/-- C7 (amended): in every run where the load magnitude never exceeds the
stall threshold and the loop is not cancelled, the control loop leaves the
`Moving` state through the timeout branch once elapsed time exceeds the
10-second bound — and it then issues *no* corrective position write: the
corrective write exists only in the stall branch. -/
theorem run_logic_timeout_no_corrective (ts : List Tick)
    (hload : ∀ t ∈ ts, ∀ l, t.load = some l → |l| ≤ STALL_THRESHOLD)
    (hrun : ∀ t ∈ ts, t.running = true)
    (htime : ∃ t ∈ ts, 10 < t.elapsed) :
    run_logic ts = (.timedOut, []) := by
  induction ts with
  | nil => simp at htime
  | cons t ts ih =>
    rw [run_logic]
    rw [hrun t (by simp)]
    simp only [Bool.true_eq_false, if_false]
    by_cases htick : 10 < t.elapsed
    · rw [if_pos htick]
    · rw [if_neg htick]
      have htime' : ∃ u ∈ ts, 10 < u.elapsed := by
        obtain ⟨u, hu, hue⟩ := htime
        rcases List.mem_cons.mp hu with rfl | hu'
        · exact absurd hue htick
        · exact ⟨u, hu', hue⟩
      have ihgoal := ih (fun u hu l hl => hload u (by simp [hu]) l hl)
        (fun u hu => hrun u (by simp [hu])) htime'
      cases hl : t.load with
      | none => cases hp : t.pos <;> exact ihgoal
      | some current_load =>
        cases hp : t.pos with
        | none => exact ihgoal
        | some current_pos =>
          dsimp only
          rw [if_neg (by
            have := hload t (by simp) current_load hl
            simp only [STALL_THRESHOLD] at this ⊢
            omega)]
          exact ihgoal

/-- C7 (counterexample): a run that times out with feedback available
issues no corrective write at all, contradicting the claim that one
corrective write referencing the last observed position is still made. -/
theorem run_logic_timeout_claim_false :
    run_logic [⟨true, 11, some 0, some 2000⟩] = (.timedOut, []) ∧
    (run_logic [⟨true, 11, some 0, some 2000⟩]).2.length ≠ 1 := by
  refine ⟨by decide, by decide⟩

/-- Witness for C7: one tick past the deadline, load far below the
threshold. -/
theorem run_logic_timeout_no_corrective_witness :
    run_logic [⟨true, 12, some 100, some 1500⟩] = (.timedOut, []) :=
  run_logic_timeout_no_corrective [⟨true, 12, some 100, some 1500⟩]
    (by intro t ht l hl; simp at ht; subst ht; simp at hl; subst hl; decide)
    (by intro t ht; simp at ht; subst ht; rfl)
    ⟨⟨true, 12, some 100, some 1500⟩, by simp, by norm_num⟩

end RobotControl
